import Mathlib

/-!
# smfg-catalog: product creation and lookup workflow

A shallow embedding of `core/catalog/service.go`, `db/repo.go`, `core/core.go`
and the handlers of `api/catalog.go`.

* Go's `error` interface is `Option Error` (`none` is `nil`).
* The `Repository` interface and the `core.Transaction` methods `Commit` and
  `Rollback` are state transformers over a store state `σ`; `τ` is the type
  of transaction handles.
* Every call that the service issues on the repository, on a transaction or
  on the queue is appended to the `calls` of a `World`, so that "is called
  zero times" and "is called exactly once" are statements about that list.
* `zerolog` and metric calls change neither the returned values nor the
  store, and are left out.
-/

namespace SmfgCatalog

/-! ## Errors (`errors.New`, `errors.WithStack`, `errors.Is`) -/

namespace core

/-- An error value: either a sentinel made by `errors.New` (two sentinels are
the same value exactly when they carry the same tag), or the `withStack`
wrapper of `github.com/pkg/errors`, whose `Unwrap` is its cause. -/
inductive Error where
  | new (msg : String)
  | withStack (cause : Error)
deriving DecidableEq, Repr

/-- Embeds `var ErrNotFound = errors.New("core: record not found")`. -/
def ErrNotFound : Error := Error.new "core: record not found"

end core

namespace pgx

/-- Embeds `pgx.ErrNoRows`, which `Row.Scan` returns when the query has no row. -/
def ErrNoRows : core.Error := core.Error.new "no rows in result set"

/-- Embeds `pgx.ErrTxClosed`, returned by a statement on a transaction that is not open. -/
def ErrTxClosed : core.Error := core.Error.new "tx is closed"

end pgx

namespace errors

open core

/-- Embeds `errors.WithStack(err)`: `nil` for `nil`, otherwise a wrapper around `err`. -/
def WithStack : Option Error → Option Error
  | none => none
  | some err => some (Error.withStack err)

/-- The unwrapping loop of `errors.Is` on a non-nil error: compare, then unwrap. -/
def chainIs : Error → Error → Bool
  | Error.new msg, target => decide (Error.new msg = target)
  | Error.withStack cause, target =>
      decide (Error.withStack cause = target) || chainIs cause target

/-- Embeds `errors.Is(err, target)` for a non-nil `target`. -/
def Is (err : Option Error) (target : Error) : Bool :=
  match err with
  | none => false
  | some e => chainIs e target

end errors

/-! ## `core/catalog`: the model, the interfaces and the service -/

namespace catalog

open core

/-- Embeds `type Product struct { Sku, Upc, Name string }`. -/
structure Product where
  Sku : String
  Upc : String
  Name : String
deriving DecidableEq, Repr

/-- The zero value `Product{}`. -/
def Product.zero : Product := ⟨"", "", ""⟩

/-- A product is well-formed when its three fields are non-empty. -/
def Product.WellFormed (p : Product) : Prop := p.Sku ≠ "" ∧ p.Upc ≠ "" ∧ p.Name ≠ ""

instance (p : Product) : Decidable p.WellFormed := by
  unfold Product.WellFormed; infer_instance

/-- Embeds `type Repository interface`, together with the `Commit` and `Rollback`
methods of the `core.Transaction` values it hands out. The variadic `tx ...`
argument is a list of handles. -/
structure Repository (σ τ : Type) where
  SaveProduct : Product → List τ → σ → Option Error × σ
  GetProduct : String → List τ → σ → (Product × Option Error) × σ
  BeginTransaction : σ → Except Error τ × σ
  Commit : τ → σ → Option Error × σ
  Rollback : τ → σ → Option Error × σ

/-- Embeds `type Queue interface`. -/
structure Queue (σ : Type) where
  PublishProduct : Product → σ → Option Error × σ

/-- One call issued on the repository, on a transaction or on the queue. -/
inductive Call (τ : Type) where
  | GetProduct (sku : String)
  | BeginTransaction
  | SaveProduct (product : Product) (tx : τ)
  | Commit (tx : τ)
  | Rollback (tx : τ)
  | PublishProduct (product : Product)
deriving DecidableEq, Repr

/-- The store state together with the calls issued so far, oldest first. -/
structure World (σ τ : Type) where
  state : σ
  calls : List (Call τ)

/-- The world after call `c` has returned and left the store in state `s`. -/
def World.record {σ τ : Type} (w : World σ τ) (c : Call τ) (s : σ) : World σ τ :=
  ⟨s, w.calls ++ [c]⟩

/-- Embeds `type service struct { repo; queue; productExchange }`. -/
structure service (σ τ : Type) where
  repo : Repository σ τ
  queue : Queue σ
  productExchange : String

/-- Embeds `func rollback(ctx, tx, err)`: calls `tx.Rollback` and returns nothing; a
rollback error is only logged. -/
def rollback {σ τ : Type} (repo : Repository σ τ) (tx : τ) (_err : Option Error)
    (w : World σ τ) : World σ τ :=
  match repo.Rollback tx w.state with
  | (_e, s1) => w.record (Call.Rollback tx) s1

/-- Embeds `func (s *service) CreateProduct(ctx, product) error`. -/
def service.CreateProduct {σ τ : Type} (s : service σ τ) (product : Product)
    (w : World σ τ) : Option Error × World σ τ :=
  match s.repo.GetProduct product.Sku [] w.state with
  | ((dbProduct, err), s1) =>
    let w1 := w.record (Call.GetProduct product.Sku) s1
    if err.isSome && !errors.Is err ErrNotFound then
      (errors.WithStack err, w1)
    else if dbProduct.Sku != "" then
      (none, w1)
    else
      match s.repo.BeginTransaction w1.state with
      | (Except.error err, s2) =>
        (errors.WithStack (some err), w1.record Call.BeginTransaction s2)
      | (Except.ok tx, s2) =>
        let w2 := w1.record Call.BeginTransaction s2
        match s.repo.SaveProduct product [tx] w2.state with
        | (some err, s3) =>
          let w3 := w2.record (Call.SaveProduct product tx) s3
          (errors.WithStack (some err), rollback s.repo tx (some err) w3)
        | (none, s3) =>
          let w3 := w2.record (Call.SaveProduct product tx) s3
          match s.repo.Commit tx w3.state with
          | (some err, s4) =>
            let w4 := w3.record (Call.Commit tx) s4
            (errors.WithStack (some err), rollback s.repo tx (some err) w4)
          | (none, s4) => (none, w3.record (Call.Commit tx) s4)

/-- Embeds `func (s *service) GetProduct(ctx, sku) (Product, error)`. -/
def service.GetProduct {σ τ : Type} (s : service σ τ) (sku : String)
    (w : World σ τ) : (Product × Option Error) × World σ τ :=
  match s.repo.GetProduct sku [] w.state with
  | ((product, err), s1) =>
    let w1 := w.record (Call.GetProduct sku) s1
    if err.isSome then ((product, errors.WithStack err), w1)
    else ((product, none), w1)

/-- Number of `Commit` calls in a list of calls. -/
def commitCalls {τ : Type} (cs : List (Call τ)) : Nat :=
  cs.countP fun c => match c with
    | Call.Commit _ => true
    | _ => false

/-- Number of `Rollback` calls in a list of calls. -/
def rollbackCalls {τ : Type} (cs : List (Call τ)) : Nat :=
  cs.countP fun c => match c with
    | Call.Rollback _ => true
    | _ => false

/-- Number of write-side calls: `BeginTransaction`, `SaveProduct`, `Commit`, `Rollback`. -/
def writeCalls {τ : Type} (cs : List (Call τ)) : Nat :=
  cs.countP fun c => match c with
    | Call.BeginTransaction => true
    | Call.SaveProduct _ _ => true
    | Call.Commit _ => true
    | Call.Rollback _ => true
    | _ => false

/-- The service with its transactions given another `Rollback`. -/
def withRollback {σ τ : Type} (s : service σ τ) (rb : τ → σ → Option Error × σ) :
    service σ τ :=
  { s with repo := { s.repo with Rollback := rb } }

/-- The error that triggers the rollback in `CreateProduct(p)` once the lookup
has let the creation proceed from store state `st`: the error of
`SaveProduct` if it fails, otherwise the error of `Commit`, on the transaction
that `BeginTransaction` returned; `none` when nothing fails or no transaction
was begun. -/
def triggerError {σ τ : Type} (s : service σ τ) (p : Product) (st : σ) : Option Error :=
  match s.repo.BeginTransaction (s.repo.GetProduct p.Sku [] st).2 with
  | (Except.error _, _) => none
  | (Except.ok tx, st2) =>
    match s.repo.SaveProduct p [tx] st2 with
    | (some e, _) => some e
    | (none, st3) => (s.repo.Commit tx st3).1

end catalog

/-! ## `db`: the Postgres repository over a table of product rows

The database itself is outside the repository. It is modelled as the
committed rows of the `products` table, the working copy of the transaction
that is open on the session (if any), and the outcome injected for each kind
of statement. A statement run on the connection acts on the committed rows;
a statement run on a transaction acts on its working copy; `COMMIT` makes
the working copy the committed rows; `ROLLBACK` discards it. A failing
statement changes nothing. -/

namespace db

open core catalog

/-- The error, if any, with which each kind of statement fails. -/
structure Faults where
  select : Option Error
  update : Option Error
  insert : Option Error
  begin : Option Error
  commit : Option Error
  rollback : Option Error
deriving DecidableEq, Repr

/-- No statement fails. -/
def Faults.none : Faults := ⟨Option.none, Option.none, Option.none, Option.none, Option.none, Option.none⟩

/-- The database session. -/
structure Pg where
  rows : List Product
  tx : Option (List Product)
  faults : Faults
deriving DecidableEq, Repr

/-- A handle on the session's transaction (`pgx.Tx`). -/
abbrev PgTx := Unit

/-- What a statement runs on: `d.conn`, or the transaction `txs[0]`. -/
inductive Executor where
  | conn
  | tx (handle : PgTx)
deriving DecidableEq, Repr

/-- Embeds `SELECT sku, upc, name FROM products WHERE sku = $1`, first row. -/
def selectRow (t : List Product) (sku : String) : Option Product :=
  t.find? fun r => r.Sku == sku

/-- Embeds `UPDATE products SET upc = $2, name = $3 WHERE sku = $1`. -/
def updateRows (t : List Product) (sku upc name : String) : List Product :=
  t.map fun r => if r.Sku == sku then { r with Upc := upc, Name := name } else r

/-- Number of rows of the table whose key is `sku` (`RowsAffected` of the update). -/
def rowsFor (t : List Product) (sku : String) : Nat :=
  t.countP fun r => r.Sku == sku

/-- Embeds `INSERT INTO products (sku, upc, name) VALUES ($1, $2, $3)`. -/
def insertRow (t : List Product) (sku upc name : String) : List Product :=
  t ++ [⟨sku, upc, name⟩]

/-- The table is keyed by sku: no two rows share a sku. -/
def Keyed (t : List Product) : Prop := (t.map fun r => r.Sku).Nodup

instance (t : List Product) : Decidable (Keyed t) := by
  unfold Keyed; infer_instance

/-- The rows a statement on executor `ex` sees, `none` when `ex` is a
transaction that is not open. -/
def Pg.table (pg : Pg) : Executor → Option (List Product)
  | Executor.conn => some pg.rows
  | Executor.tx _ => pg.tx

/-- The session after a statement on executor `ex` has left the rows `t`. -/
def Pg.setTable (pg : Pg) (ex : Executor) (t : List Product) : Pg :=
  match ex with
  | Executor.conn => { pg with rows := t }
  | Executor.tx _ => { pg with tx := some t }

/-- Embeds `QueryRow(ctx, SELECT ..., sku).Scan(&product.Sku, &product.Upc, &product.Name)`. -/
def Pg.QueryRowScan (pg : Pg) (ex : Executor) (sku : String) : Except Error Product :=
  match pg.faults.select with
  | some err => Except.error err
  | none =>
    match pg.table ex with
    | none => Except.error pgx.ErrTxClosed
    | some t =>
      match selectRow t sku with
      | none => Except.error pgx.ErrNoRows
      | some row => Except.ok row

/-- Embeds `Exec(ctx, UPDATE ..., sku, upc, name)`: the rows affected, the error, the session. -/
def Pg.ExecUpdate (pg : Pg) (ex : Executor) (sku upc name : String) :
    (Nat × Option Error) × Pg :=
  match pg.faults.update with
  | some err => ((0, some err), pg)
  | none =>
    match pg.table ex with
    | none => ((0, some pgx.ErrTxClosed), pg)
    | some t => ((rowsFor t sku, none), pg.setTable ex (updateRows t sku upc name))

/-- Embeds `Exec(ctx, INSERT ..., sku, upc, name)`. -/
def Pg.ExecInsert (pg : Pg) (ex : Executor) (sku upc name : String) :
    Option Error × Pg :=
  match pg.faults.insert with
  | some err => (some err, pg)
  | none =>
    match pg.table ex with
    | none => (some pgx.ErrTxClosed, pg)
    | some t => (none, pg.setTable ex (insertRow t sku upc name))

/-- Embeds `conn.Begin(ctx)`: opens the transaction on a copy of the committed rows. -/
def Pg.Begin (pg : Pg) : Except Error PgTx × Pg :=
  match pg.faults.begin with
  | some err => (Except.error err, pg)
  | none => (Except.ok (), { pg with tx := some pg.rows })

/-- Embeds `tx.Commit(ctx)`. -/
def Pg.Commit (_tx : PgTx) (pg : Pg) : Option Error × Pg :=
  match pg.faults.commit with
  | some err => (some err, pg)
  | none =>
    match pg.tx with
    | none => (some pgx.ErrTxClosed, pg)
    | some t => (none, { pg with rows := t, tx := none })

/-- Embeds `tx.Rollback(ctx)`. -/
def Pg.Rollback (_tx : PgTx) (pg : Pg) : Option Error × Pg :=
  match pg.faults.rollback with
  | some err => (some err, pg)
  | none =>
    match pg.tx with
    | none => (some pgx.ErrTxClosed, pg)
    | some _ => (none, { pg with tx := none })

/-- The part of the session that outlives a transaction: the committed rows
and the injected outcomes. -/
def Pg.committed (pg : Pg) : Pg := { pg with tx := none }

/-- The executor chosen by `tx := d.conn; if len(txs) > 0 { tx = txs[0] }`. -/
def executor : List PgTx → Executor
  | [] => Executor.conn
  | h :: _ => Executor.tx h

/-- Embeds `func (d *dbRepo) SaveProduct(ctx, product, txs ...core.Transaction) error`. -/
def dbRepo.SaveProduct (product : Product) (txs : List PgTx) (pg : Pg) : Option Error × Pg :=
  let tx := executor txs
  match pg.ExecUpdate tx product.Sku product.Upc product.Name with
  | ((_, some err), pg1) => (errors.WithStack (some err), pg1)
  | ((ct, none), pg1) =>
    if ct == 0 then
      match pg1.ExecInsert tx product.Sku product.Upc product.Name with
      | (some err, pg2) => (some err, pg2)
      | (none, pg2) => (none, pg2)
    else (none, pg1)

/-- Embeds `func (d *dbRepo) GetProduct(ctx, sku, txs ...core.Transaction) (catalog.Product, error)`. -/
def dbRepo.GetProduct (sku : String) (txs : List PgTx) (pg : Pg) :
    (Product × Option Error) × Pg :=
  let tx := executor txs
  match pg.QueryRowScan tx sku with
  | Except.error err =>
    if err = pgx.ErrNoRows then ((Product.zero, errors.WithStack (some ErrNotFound)), pg)
    else ((Product.zero, errors.WithStack (some err)), pg)
  | Except.ok product => ((product, none), pg)

/-- Embeds `func (d *dbRepo) BeginTransaction(ctx) (core.Transaction, error)`. -/
def dbRepo.BeginTransaction (pg : Pg) : Except Error PgTx × Pg :=
  match pg.Begin with
  | (Except.error err, pg1) => (Except.error err, pg1)
  | (Except.ok tx, pg1) => (Except.ok tx, pg1)

/-- The `dbRepo` as a `catalog.Repository`. -/
def dbRepo : Repository Pg PgTx where
  SaveProduct := dbRepo.SaveProduct
  GetProduct := dbRepo.GetProduct
  BeginTransaction := dbRepo.BeginTransaction
  Commit := Pg.Commit
  Rollback := Pg.Rollback

/-- A queue whose `PublishProduct` accepts every message (`queue.NewMockQueue`). -/
def mockQueue (σ : Type) : Queue σ where
  PublishProduct := fun _ s => (none, s)

/-- Embeds `catalog.NewService(db.NewPostgresRepo(conn), queue, "product.fanout")`. -/
def pgService : service Pg PgTx := ⟨dbRepo, mockQueue Pg, "product.fanout"⟩

/-- Embeds `var testProducts` of `api/catalog_test.go`. -/
def testProducts : List Product :=
  [⟨"sku1", "upc1", "name1"⟩, ⟨"sku2", "upc2", "name2"⟩, ⟨"sku3", "upc3", "name3"⟩]

/-- The first test product, `{sku1, upc1, name1}`. -/
def tp : Product := ⟨"sku1", "upc1", "name1"⟩

/-- An empty database on which no statement fails. -/
def emptyPg : Pg := ⟨[], none, Faults.none⟩

/-- An empty database on which `COMMIT` fails. -/
def commitFailsPg : Pg :=
  ⟨[], none, { Faults.none with commit := some (Error.new "commit failed") }⟩

/-- An empty database on which `INSERT` and `ROLLBACK` fail. -/
def insertFailsPg : Pg :=
  ⟨[], none, { Faults.none with insert := some (Error.new "insert failed"),
                                rollback := some (Error.new "rollback failed") }⟩

/-- A database on which `SELECT` fails with a connection error. -/
def selectFailsPg : Pg :=
  ⟨[tp], none, { Faults.none with select := some (Error.new "connection refused") }⟩

/-- A database whose table holds one row, with the empty sku. -/
def emptySkuPg : Pg := ⟨[⟨"", "upc0", "name0"⟩], none, Faults.none⟩

/-- A database whose table holds the row `{sku1, upc0, name0}`. -/
def sku1Pg : Pg := ⟨[⟨"sku1", "upc0", "name0"⟩], none, Faults.none⟩

/-- An empty database on which `BEGIN` fails. -/
def beginFailsPg : Pg :=
  ⟨[], none, { Faults.none with begin := some (Error.new "begin failed") }⟩

/-- A database whose table holds `sku1, upc0, name0` and `sku2, upc2, name2`. -/
def twoRowsPg : Pg := ⟨[⟨"sku1", "upc0", "name0"⟩, ⟨"sku2", "upc2", "name2"⟩], none, Faults.none⟩

/-! ### `db/mocks.go` -/

/-- Embeds `type MockTransaction struct {}`. -/
structure MockTransaction where
deriving DecidableEq, Repr

/-- Embeds `func (m MockTransaction) Commit(_ context.Context) error`. -/
def MockTransaction.Commit (_m : MockTransaction) : Option Error := none

/-- Embeds `func (m MockTransaction) Rollback(_ context.Context) error`. -/
def MockTransaction.Rollback (_m : MockTransaction) : Option Error := none

/-- Embeds `type MockRepo struct`, whose three fields are the functions that
its methods call. -/
structure MockRepo where
  SaveProductFunc : Product → List MockTransaction → Option Error
  GetProductFunc : String → List MockTransaction → Product × Option Error
  BeginTransactionFunc : Unit → Except Error MockTransaction

/-- Embeds `func NewMockRepo() MockRepo`: saving succeeds, the lookup returns
the zero product with no error, and a `MockTransaction` is begun. -/
def NewMockRepo : MockRepo where
  SaveProductFunc := fun _ _ => none
  GetProductFunc := fun _ _ => (Product.zero, none)
  BeginTransactionFunc := fun _ => Except.ok ⟨⟩

/-- The methods of `MockRepo` and of its transactions as a `catalog.Repository`
over a store without state. -/
def MockRepo.repository (r : MockRepo) : Repository Unit MockTransaction where
  SaveProduct := fun product tx s => (r.SaveProductFunc product tx, s)
  GetProduct := fun sku tx s => (r.GetProductFunc sku tx, s)
  BeginTransaction := fun s => (r.BeginTransactionFunc (), s)
  Commit := fun tx s => (tx.Commit, s)
  Rollback := fun tx s => (tx.Rollback, s)

/-- Embeds `catalog.NewService(db.NewMockRepo(), queue.NewMockQueue(), "product.fanout")`
of `api/catalog_test.go`. -/
def mockService : service Unit MockTransaction :=
  ⟨NewMockRepo.repository, mockQueue Unit, "product.fanout"⟩

end db

/-! ## `api`: the HTTP handlers -/

namespace api

open core catalog

/-- What a handler renders. `ErrInvalidRequest`, `ErrInternalServer` and
`ErrNotFound` are the error renderers of the `api` package; a product
response carries its HTTP status. -/
inductive Response where
  | ErrInvalidRequest (err : Error)
  | ErrInternalServer
  | ErrNotFound
  | ProductResponse (status : Nat) (product : Product)
deriving DecidableEq, Repr

/-- Embeds `func (p *CreateProductRequest) Bind(_ *http.Request) error`. -/
def CreateProductRequest.Bind (p : Product) : Option Error :=
  if p.Upc == "" || p.Name == "" || p.Sku == "" then
    some (Error.new "missing required field(s)")
  else none

/-- Embeds `func (a *CatalogApi) Create(w, r)`, on the decoded request body `data`. -/
def CatalogApi.Create {σ τ : Type} (a : service σ τ) (data : Product)
    (w : World σ τ) : Response × World σ τ :=
  match CreateProductRequest.Bind data with
  | some err => (Response.ErrInvalidRequest err, w)
  | none =>
    match a.CreateProduct data w with
    | (some _, w1) => (Response.ErrInternalServer, w1)
    | (none, w1) => (Response.ProductResponse 201 data, w1)

/-- Embeds `func (a *CatalogApi) GetProduct(w, r)`, on the URL parameter `sku`. -/
def CatalogApi.GetProduct {σ τ : Type} (a : service σ τ) (sku : String)
    (w : World σ τ) : Response × World σ τ :=
  if sku == "" then
    (Response.ErrInvalidRequest (Error.new "sku is required"), w)
  else
    match a.GetProduct sku w with
    | ((product, err), w1) =>
      if err.isSome then
        if errors.Is err ErrNotFound then (Response.ErrNotFound, w1)
        else (Response.ErrInternalServer, w1)
      else (Response.ProductResponse 200 product, w1)

end api

/-! # Theorems -/

section Theorems

open core catalog db api

/-! ## The error chain -/

/-- Wrapping with `errors.WithStack` does not change whether an error is
recognised as `core.ErrNotFound`. -/
theorem Is_WithStack (err : Option Error) :
    errors.Is (errors.WithStack err) ErrNotFound = errors.Is err ErrNotFound := by
  cases err with
  | none => rfl
  | some e => simp [errors.WithStack, errors.Is, errors.chainIs, ErrNotFound]

/-- The existence test of `CreateProduct` lets `nil` and not-found errors through. -/
theorem passes_iff (err : Option Error) :
    (err.isSome && !errors.Is err ErrNotFound) = false ↔
      (err = none ∨ errors.Is err ErrNotFound = true) := by
  cases err with
  | none => simp
  | some e => simp

theorem not_found_passes :
    ((some (Error.withStack ErrNotFound)).isSome
      && !errors.Is (some (Error.withStack ErrNotFound)) ErrNotFound) = false := by
  decide

/-! ## The paths of `CreateProduct` over an arbitrary repository -/

/-- The path on which the lookup fails with an error other than not-found. -/
theorem CreateProduct_rejected {σ τ : Type} (s : service σ τ) (p q : Product)
    (err : Option Error) (w : World σ τ) (st1 : σ)
    (hget : s.repo.GetProduct p.Sku [] w.state = ((q, err), st1))
    (hpass : (err.isSome && !errors.Is err ErrNotFound) = true) :
    s.CreateProduct p w = (errors.WithStack err, w.record (Call.GetProduct p.Sku) st1) := by
  simp only [service.CreateProduct, hget, hpass]
  simp

/-- The path on which the lookup returns a record with a non-empty sku. -/
theorem CreateProduct_found {σ τ : Type} (s : service σ τ) (p q : Product)
    (err : Option Error) (w : World σ τ) (st1 : σ)
    (hget : s.repo.GetProduct p.Sku [] w.state = ((q, err), st1))
    (hpass : (err.isSome && !errors.Is err ErrNotFound) = false)
    (hq : q.Sku ≠ "") :
    s.CreateProduct p w = (none, w.record (Call.GetProduct p.Sku) st1) := by
  simp only [service.CreateProduct, hget, hpass]
  simp [hq]

/-- The path on which `BeginTransaction` fails. -/
theorem CreateProduct_begin_failed {σ τ : Type} (s : service σ τ) (p q : Product)
    (err : Option Error) (e : Error) (w : World σ τ) (st1 st2 : σ)
    (hget : s.repo.GetProduct p.Sku [] w.state = ((q, err), st1))
    (hpass : (err.isSome && !errors.Is err ErrNotFound) = false)
    (hq : q.Sku = "")
    (hbegin : s.repo.BeginTransaction st1 = (Except.error e, st2)) :
    s.CreateProduct p w
      = (some (Error.withStack e),
          ⟨st2, w.calls ++ [Call.GetProduct p.Sku, Call.BeginTransaction]⟩) := by
  simp only [service.CreateProduct, hget, hpass]
  simp [hq, World.record, hbegin, errors.WithStack]

/-- The path on which `SaveProduct` fails. -/
theorem CreateProduct_save_failed {σ τ : Type} (s : service σ τ) (p q : Product)
    (err re : Option Error) (e : Error) (tx : τ) (w : World σ τ) (st1 st2 st3 st4 : σ)
    (hget : s.repo.GetProduct p.Sku [] w.state = ((q, err), st1))
    (hpass : (err.isSome && !errors.Is err ErrNotFound) = false)
    (hq : q.Sku = "")
    (hbegin : s.repo.BeginTransaction st1 = (Except.ok tx, st2))
    (hsave : s.repo.SaveProduct p [tx] st2 = (some e, st3))
    (hrb : s.repo.Rollback tx st3 = (re, st4)) :
    s.CreateProduct p w
      = (some (Error.withStack e),
          ⟨st4, w.calls ++ [Call.GetProduct p.Sku, Call.BeginTransaction,
            Call.SaveProduct p tx, Call.Rollback tx]⟩) := by
  simp only [service.CreateProduct, hget, hpass]
  simp [hq, World.record, hbegin, hsave, hrb, rollback, errors.WithStack]

/-- The path on which `SaveProduct` succeeds and `Commit` fails. -/
theorem CreateProduct_commit_failed {σ τ : Type} (s : service σ τ) (p q : Product)
    (err re : Option Error) (e : Error) (tx : τ) (w : World σ τ) (st1 st2 st3 st4 st5 : σ)
    (hget : s.repo.GetProduct p.Sku [] w.state = ((q, err), st1))
    (hpass : (err.isSome && !errors.Is err ErrNotFound) = false)
    (hq : q.Sku = "")
    (hbegin : s.repo.BeginTransaction st1 = (Except.ok tx, st2))
    (hsave : s.repo.SaveProduct p [tx] st2 = (none, st3))
    (hcommit : s.repo.Commit tx st3 = (some e, st4))
    (hrb : s.repo.Rollback tx st4 = (re, st5)) :
    s.CreateProduct p w
      = (some (Error.withStack e),
          ⟨st5, w.calls ++ [Call.GetProduct p.Sku, Call.BeginTransaction,
            Call.SaveProduct p tx, Call.Commit tx, Call.Rollback tx]⟩) := by
  simp only [service.CreateProduct, hget, hpass]
  simp [hq, World.record, hbegin, hsave, hcommit, hrb, rollback, errors.WithStack]

/-- The path on which every step succeeds. -/
theorem CreateProduct_committed {σ τ : Type} (s : service σ τ) (p q : Product)
    (err : Option Error) (tx : τ) (w : World σ τ) (st1 st2 st3 st4 : σ)
    (hget : s.repo.GetProduct p.Sku [] w.state = ((q, err), st1))
    (hpass : (err.isSome && !errors.Is err ErrNotFound) = false)
    (hq : q.Sku = "")
    (hbegin : s.repo.BeginTransaction st1 = (Except.ok tx, st2))
    (hsave : s.repo.SaveProduct p [tx] st2 = (none, st3))
    (hcommit : s.repo.Commit tx st3 = (none, st4)) :
    s.CreateProduct p w
      = (none,
          ⟨st4, w.calls ++ [Call.GetProduct p.Sku, Call.BeginTransaction,
            Call.SaveProduct p tx, Call.Commit tx]⟩) := by
  simp only [service.CreateProduct, hget, hpass]
  simp [hq, World.record, hbegin, hsave, hcommit]

/-! ## The table operations -/

theorem selectRow_sku {t : List Product} {sku : String} {r : Product}
    (h : selectRow t sku = some r) : r.Sku = sku := by
  have := List.find?_some h
  simpa using this

theorem selectRow_mem {t : List Product} {sku : String} {r : Product}
    (h : selectRow t sku = some r) : r ∈ t :=
  List.mem_of_find?_eq_some h

theorem selectRow_eq_none_iff (t : List Product) (sku : String) :
    selectRow t sku = none ↔ ∀ r ∈ t, r.Sku ≠ sku := by
  simp [selectRow, List.find?_eq_none]

theorem rowsFor_eq_zero_iff (t : List Product) (sku : String) :
    rowsFor t sku = 0 ↔ selectRow t sku = none := by
  rw [selectRow_eq_none_iff]
  simp [rowsFor, List.countP_eq_zero]

/-- An update for a sku that no row carries leaves the table as it is. -/
theorem updateRows_absent (t : List Product) (sku upc name : String)
    (h : selectRow t sku = none) : updateRows t sku upc name = t := by
  rw [selectRow_eq_none_iff] at h
  unfold updateRows
  conv_rhs => rw [← List.map_id t]
  apply List.map_congr_left
  intro r hr
  simp [h r hr]

theorem rowsFor_eq_count (t : List Product) (sku : String) :
    rowsFor t sku = (t.map fun r => r.Sku).count sku := by
  induction t with
  | nil => rfl
  | cons r t ih =>
    simp only [rowsFor] at ih
    simp only [rowsFor, List.map_cons, List.countP_cons, List.count_cons, ih]

/-- In a keyed table a sku that is found has exactly one row. -/
theorem rowsFor_of_keyed {t : List Product} {sku : String} {r : Product}
    (hk : Keyed t) (h : selectRow t sku = some r) : rowsFor t sku = 1 := by
  rw [rowsFor_eq_count]
  apply List.count_eq_one_of_mem hk
  have hm := selectRow_mem h
  have hs := selectRow_sku h
  exact List.mem_map.mpr ⟨r, hm, hs⟩

theorem selectRow_insertRow_absent (t : List Product) (p : Product)
    (h : selectRow t p.Sku = none) :
    selectRow (insertRow t p.Sku p.Upc p.Name) p.Sku = some p := by
  unfold selectRow at h
  simp [selectRow, insertRow, List.find?_append, h]

theorem rowsFor_insertRow_absent (t : List Product) (p : Product)
    (h : selectRow t p.Sku = none) :
    rowsFor (insertRow t p.Sku p.Upc p.Name) p.Sku = 1 := by
  have h0 := (rowsFor_eq_zero_iff t p.Sku).mpr h
  unfold rowsFor at h0
  simp [rowsFor, insertRow, List.countP_append, h0]

/-! ## The Postgres repository -/

theorem dbRepo_GetProduct_state (sku : String) (txs : List PgTx) (pg : Pg) :
    (dbRepo.GetProduct sku txs pg).2 = pg := by
  simp only [dbRepo.GetProduct]
  cases pg.QueryRowScan (executor txs) sku with
  | error err => by_cases h : err = pgx.ErrNoRows <;> simp [h]
  | ok product => rfl

theorem dbRepo_GetProduct_absent (pg : Pg) (sku : String)
    (hf : pg.faults.select = none) (h : selectRow pg.rows sku = none) :
    dbRepo.GetProduct sku [] pg
      = ((Product.zero, some (Error.withStack ErrNotFound)), pg) := by
  simp [dbRepo.GetProduct, executor, Pg.QueryRowScan, hf, Pg.table, h, errors.WithStack]

theorem dbRepo_GetProduct_present (pg : Pg) (sku : String) (r : Product)
    (hf : pg.faults.select = none) (h : selectRow pg.rows sku = some r) :
    dbRepo.GetProduct sku [] pg = ((r, none), pg) := by
  simp [dbRepo.GetProduct, executor, Pg.QueryRowScan, hf, Pg.table, h]

theorem dbRepo_BeginTransaction_ok (pg : Pg) (hf : pg.faults.begin = none) :
    dbRepo.BeginTransaction pg = (Except.ok (), { pg with tx := some pg.rows }) := by
  simp [dbRepo.BeginTransaction, Pg.Begin, hf]

/-- Inside an open transaction, with no failing statement, `SaveProduct` of a
product whose sku has no row inserts it into the working copy. -/
theorem dbRepo_SaveProduct_insert (pg : Pg) (t : List Product) (p : Product) (tx : PgTx)
    (htx : pg.tx = some t) (hu : pg.faults.update = none) (hi : pg.faults.insert = none)
    (h : selectRow t p.Sku = none) :
    dbRepo.SaveProduct p [tx] pg
      = (none, { pg with tx := some (insertRow t p.Sku p.Upc p.Name) }) := by
  have h0 := (rowsFor_eq_zero_iff t p.Sku).mpr h
  simp [dbRepo.SaveProduct, executor, Pg.ExecUpdate, Pg.ExecInsert, Pg.table, Pg.setTable,
    htx, hu, hi, h0, updateRows_absent t p.Sku p.Upc p.Name h]

/-- On a database where the lookup, begin, update, insert and commit
statements succeed and the table has no row for `p.Sku`, `CreateProduct(p)`
inserts `p` and commits. -/
theorem pgService_create_absent (w : World Pg PgTx) (p : Product)
    (hs : w.state.faults.select = none) (hb : w.state.faults.begin = none)
    (hu : w.state.faults.update = none) (hi : w.state.faults.insert = none)
    (hc : w.state.faults.commit = none)
    (habs : selectRow w.state.rows p.Sku = none) :
    pgService.CreateProduct p w
      = (none,
          ⟨{ w.state with rows := insertRow w.state.rows p.Sku p.Upc p.Name, tx := none },
            w.calls ++ [Call.GetProduct p.Sku, Call.BeginTransaction,
              Call.SaveProduct p (), Call.Commit ()]⟩) := by
  have hget := dbRepo_GetProduct_absent w.state p.Sku hs habs
  have hbegin := dbRepo_BeginTransaction_ok w.state hb
  have hsave := dbRepo_SaveProduct_insert { w.state with tx := some w.state.rows }
    w.state.rows p () rfl hu hi habs
  have hcommit : Pg.Commit ()
      { w.state with tx := some (insertRow w.state.rows p.Sku p.Upc p.Name) }
      = (none, { w.state with rows := insertRow w.state.rows p.Sku p.Upc p.Name,
                              tx := none }) := by
    simp [Pg.Commit, hc]
  exact CreateProduct_committed pgService p Product.zero _ () w _ _ _ _
    hget not_found_passes rfl hbegin hsave hcommit

/-- On a database where the lookup succeeds and finds a row for the non-empty
`p.Sku`, `CreateProduct(p)` only looks up. -/
theorem pgService_create_present (w : World Pg PgTx) (p r : Product)
    (hs : w.state.faults.select = none) (hne : p.Sku ≠ "")
    (h : selectRow w.state.rows p.Sku = some r) :
    pgService.CreateProduct p w = (none, w.record (Call.GetProduct p.Sku) w.state) := by
  have hget := dbRepo_GetProduct_present w.state p.Sku r hs h
  have hr : r.Sku ≠ "" := by rw [selectRow_sku h]; exact hne
  exact CreateProduct_found pgService p r none w _ hget rfl hr

/-! ## What a transaction that is not committed leaves behind -/

theorem BeginTransaction_committed (pg : Pg) :
    (dbRepo.BeginTransaction pg).2.committed = pg.committed := by
  unfold dbRepo.BeginTransaction Pg.Begin
  cases pg.faults.begin <;> rfl

theorem ExecUpdate_tx_committed (pg : Pg) (h : PgTx) (sku upc name : String) :
    (pg.ExecUpdate (Executor.tx h) sku upc name).2.committed = pg.committed := by
  unfold Pg.ExecUpdate
  cases pg.faults.update with
  | some e => rfl
  | none => cases htx : pg.tx <;> simp [Pg.table, htx, Pg.setTable, Pg.committed]

theorem ExecInsert_tx_committed (pg : Pg) (h : PgTx) (sku upc name : String) :
    (pg.ExecInsert (Executor.tx h) sku upc name).2.committed = pg.committed := by
  unfold Pg.ExecInsert
  cases pg.faults.insert with
  | some e => rfl
  | none => cases htx : pg.tx <;> simp [Pg.table, htx, Pg.setTable, Pg.committed]

/-- Within a transaction `SaveProduct` changes only the working copy. -/
theorem SaveProduct_tx_committed (pg : Pg) (p : Product) (tx : PgTx) :
    (dbRepo.SaveProduct p [tx] pg).2.committed = pg.committed := by
  have hu := ExecUpdate_tx_committed pg tx p.Sku p.Upc p.Name
  rcases hupd : pg.ExecUpdate (Executor.tx tx) p.Sku p.Upc p.Name with ⟨⟨ct, _ | e⟩, pg1⟩
  · rw [hupd] at hu
    by_cases hct : ct = 0
    · have hi := ExecInsert_tx_committed pg1 tx p.Sku p.Upc p.Name
      rcases hins : pg1.ExecInsert (Executor.tx tx) p.Sku p.Upc p.Name with ⟨_ | e, pg2⟩ <;>
        · rw [hins] at hi
          simp only [dbRepo.SaveProduct, executor, hupd, hct, hins]
          exact hi.trans hu
    · simp only [dbRepo.SaveProduct, executor, hupd]
      simpa [hct] using hu
  · rw [hupd] at hu
    simp only [dbRepo.SaveProduct, executor, hupd]
    exact hu

theorem Rollback_committed (tx : PgTx) (pg : Pg) :
    (Pg.Rollback tx pg).2.committed = pg.committed := by
  unfold Pg.Rollback
  cases pg.faults.rollback with
  | some e => rfl
  | none => cases pg.tx <;> rfl

/-- A lookup on the connection depends only on the committed part. -/
theorem GetProduct_committed (sku : String) (pg : Pg) :
    (dbRepo.GetProduct sku [] pg).1 = (dbRepo.GetProduct sku [] pg.committed).1 := by
  have hq : pg.committed.QueryRowScan Executor.conn sku = pg.QueryRowScan Executor.conn sku := rfl
  simp only [dbRepo.GetProduct, executor, hq]
  cases pg.QueryRowScan Executor.conn sku with
  | error err => by_cases h : err = pgx.ErrNoRows <;> simp [h]
  | ok product => rfl

theorem service_GetProduct_committed (sku : String) (w w2 : World Pg PgTx)
    (h : w.state.committed = w2.state.committed) :
    (pgService.GetProduct sku w).1 = (pgService.GetProduct sku w2).1 := by
  have h1 := GetProduct_committed sku w.state
  have h2 := GetProduct_committed sku w2.state
  rw [h] at h1
  have h3 : (pgService.repo.GetProduct sku [] w.state).1
      = (pgService.repo.GetProduct sku [] w2.state).1 := h1.trans h2.symm
  rcases hg : pgService.repo.GetProduct sku [] w.state with ⟨⟨q, err⟩, st1⟩
  rcases hg2 : pgService.repo.GetProduct sku [] w2.state with ⟨⟨q2, err2⟩, st2⟩
  rw [hg, hg2] at h3
  simp only [Prod.mk.injEq] at h3
  obtain ⟨rfl, rfl⟩ := h3
  simp only [service.GetProduct, hg, hg2]
  cases q2err : err.isSome <;> simp

/-- When `CreateProduct` issues no `Commit`, the committed part of the
database is what it was. -/
theorem pgService_no_commit_committed (pg : Pg) (p : Product)
    (hno : commitCalls (pgService.CreateProduct p ⟨pg, []⟩).2.calls = 0) :
    (pgService.CreateProduct p ⟨pg, []⟩).2.state.committed = pg.committed := by
  rcases hget : pgService.repo.GetProduct p.Sku [] pg with ⟨⟨q, err⟩, st1⟩
  have h1 : st1 = pg := by
    have := dbRepo_GetProduct_state p.Sku [] pg
    have hget2 : dbRepo.GetProduct p.Sku [] pg = ((q, err), st1) := hget
    rw [hget2] at this
    exact this
  subst h1
  cases hpass : (err.isSome && !errors.Is err ErrNotFound)
  · by_cases hq : q.Sku = ""
    · have hB := BeginTransaction_committed st1
      rcases hbegin : pgService.repo.BeginTransaction st1 with ⟨_ | tx1, st2⟩
      · rw [CreateProduct_begin_failed pgService p q err _ ⟨st1, []⟩ st1 st2
          hget hpass hq hbegin]
        have hbegin2 : dbRepo.BeginTransaction st1 = (Except.error _, st2) := hbegin
        rw [hbegin2] at hB
        exact hB
      · have hbegin2 : dbRepo.BeginTransaction st1 = (Except.ok tx1, st2) := hbegin
        rw [hbegin2] at hB
        have hS := SaveProduct_tx_committed st2 p tx1
        rcases hsave : pgService.repo.SaveProduct p [tx1] st2 with ⟨_ | e, st3⟩
        · rcases hcommit : pgService.repo.Commit tx1 st3 with ⟨_ | e, st4⟩
          · rw [CreateProduct_committed pgService p q err tx1 ⟨st1, []⟩ st1 st2 st3 st4
              hget hpass hq hbegin hsave hcommit] at hno
            simp [commitCalls] at hno
          · rcases hrb : pgService.repo.Rollback tx1 st4 with ⟨re, st5⟩
            rw [CreateProduct_commit_failed pgService p q err re e tx1 ⟨st1, []⟩
              st1 st2 st3 st4 st5 hget hpass hq hbegin hsave hcommit hrb] at hno
            simp [commitCalls] at hno
        · have hsave2 : dbRepo.SaveProduct p [tx1] st2 = (some e, st3) := hsave
          rw [hsave2] at hS
          have hR := Rollback_committed tx1 st3
          rcases hrb : pgService.repo.Rollback tx1 st3 with ⟨re, st4⟩
          have hrb2 : Pg.Rollback tx1 st3 = (re, st4) := hrb
          rw [hrb2] at hR
          rw [CreateProduct_save_failed pgService p q err re e tx1 ⟨st1, []⟩
            st1 st2 st3 st4 hget hpass hq hbegin hsave hrb]
          exact hR.trans (hS.trans hB)
    · rw [CreateProduct_found pgService p q err ⟨st1, []⟩ st1 hget hpass hq]
      rfl
  · rw [CreateProduct_rejected pgService p q err ⟨st1, []⟩ st1 hget hpass]
    rfl

/-! ## Idempotent creation (C1, C2, C3) -/

/-- C1: on a database keyed by sku on which no statement fails, calling
`CreateProduct(p)` twice in sequence with a well-formed `p` makes both calls
return `nil`; afterwards the table holds exactly one row for `p.Sku`, and the
table is the one left by the first call. -/
theorem CreateProduct_twice (pg : Pg) (p : Product)
    (hp : p.WellFormed) (hk : Keyed pg.rows) (hf : pg.faults = Faults.none) :
    (pgService.CreateProduct p ⟨pg, []⟩).1 = none
      ∧ (pgService.CreateProduct p (pgService.CreateProduct p ⟨pg, []⟩).2).1 = none
      ∧ rowsFor (pgService.CreateProduct p (pgService.CreateProduct p ⟨pg, []⟩).2).2.state.rows
          p.Sku = 1
      ∧ (pgService.CreateProduct p (pgService.CreateProduct p ⟨pg, []⟩).2).2.state.rows
          = (pgService.CreateProduct p ⟨pg, []⟩).2.state.rows := by
  have hs : pg.faults.select = none := by rw [hf]; rfl
  have hb : pg.faults.begin = none := by rw [hf]; rfl
  have hu : pg.faults.update = none := by rw [hf]; rfl
  have hi : pg.faults.insert = none := by rw [hf]; rfl
  have hc : pg.faults.commit = none := by rw [hf]; rfl
  cases hsel : selectRow pg.rows p.Sku with
  | none =>
    rw [pgService_create_absent ⟨pg, []⟩ p hs hb hu hi hc hsel]
    rw [pgService_create_present _ p p hs hp.1 (selectRow_insertRow_absent pg.rows p hsel)]
    exact ⟨rfl, rfl, rowsFor_insertRow_absent pg.rows p hsel, rfl⟩
  | some r =>
    rw [pgService_create_present ⟨pg, []⟩ p r hs hp.1 hsel]
    rw [pgService_create_present _ p r hs hp.1 hsel]
    exact ⟨rfl, rfl, rowsFor_of_keyed hk hsel, rfl⟩

/-- C1 at the empty database and the product `sku1, upc1, name1`. -/
theorem CreateProduct_twice_witness :
    (tp.WellFormed ∧ Keyed emptyPg.rows ∧ emptyPg.faults = Faults.none)
      ∧ ((pgService.CreateProduct tp ⟨emptyPg, []⟩).1 = none
        ∧ (pgService.CreateProduct tp (pgService.CreateProduct tp ⟨emptyPg, []⟩).2).1 = none
        ∧ rowsFor (pgService.CreateProduct tp
            (pgService.CreateProduct tp ⟨emptyPg, []⟩).2).2.state.rows tp.Sku = 1
        ∧ (pgService.CreateProduct tp (pgService.CreateProduct tp ⟨emptyPg, []⟩).2).2.state.rows
            = (pgService.CreateProduct tp ⟨emptyPg, []⟩).2.state.rows) :=
  ⟨⟨by decide, by decide, rfl⟩, CreateProduct_twice emptyPg tp (by decide) (by decide) rfl⟩

/-- C2 (as stated, refuted): the table holds a record for the empty sku (the
state that `CreateProduct` itself leaves when given such a product on an empty
database), `GetProduct("")` finds it, and `CreateProduct` of a product with
the empty sku and other values begins a transaction, writes and commits,
replacing the stored upc and name. -/
theorem empty_sku_record_is_overwritten :
    (pgService.CreateProduct ⟨"", "upc0", "name0"⟩ ⟨emptyPg, []⟩).2.state = emptySkuPg
      ∧ dbRepo.GetProduct "" [] emptySkuPg = ((⟨"", "upc0", "name0"⟩, none), emptySkuPg)
      ∧ (pgService.CreateProduct ⟨"", "upc1", "name1"⟩ ⟨emptySkuPg, []⟩).1 = none
      ∧ (pgService.CreateProduct ⟨"", "upc1", "name1"⟩ ⟨emptySkuPg, []⟩).2.calls
          = [Call.GetProduct "", Call.BeginTransaction,
             Call.SaveProduct ⟨"", "upc1", "name1"⟩ (), Call.Commit ()]
      ∧ (pgService.CreateProduct ⟨"", "upc1", "name1"⟩ ⟨emptySkuPg, []⟩).2.state.rows
          = [⟨"", "upc1", "name1"⟩] := by
  decide

/-- C2 (amended): when `GetProduct(p.Sku)` returns, without error, a record
whose sku is non-empty, `CreateProduct(p)` returns `nil`, the lookup is the
only call issued (`BeginTransaction`, `SaveProduct`, `Commit` and `Rollback`
are called zero times), and the store is left in the state in which the
lookup left it, whatever upc and name `p` carries. -/
theorem CreateProduct_existing_no_write {σ τ : Type} (s : service σ τ) (p q : Product)
    (st st1 : σ)
    (hget : s.repo.GetProduct p.Sku [] st = ((q, none), st1))
    (hq : q.Sku ≠ "") :
    s.CreateProduct p ⟨st, []⟩ = (none, ⟨st1, [Call.GetProduct p.Sku]⟩)
      ∧ writeCalls (s.CreateProduct p ⟨st, []⟩).2.calls = 0 := by
  have h := CreateProduct_found s p q none ⟨st, []⟩ st1 hget rfl hq
  rw [h]
  exact ⟨rfl, by simp [World.record, writeCalls]⟩

/-- C2 (amended) at a database that holds `sku1, upc0, name0`: creating
`sku1, upc1, name1` leaves the stored row as it was. -/
theorem CreateProduct_existing_no_write_witness :
    (pgService.repo.GetProduct tp.Sku [] sku1Pg = ((⟨"sku1", "upc0", "name0"⟩, none), sku1Pg)
        ∧ (⟨"sku1", "upc0", "name0"⟩ : Product).Sku ≠ "")
      ∧ (pgService.CreateProduct tp ⟨sku1Pg, []⟩ = (none, ⟨sku1Pg, [Call.GetProduct tp.Sku]⟩)
        ∧ writeCalls (pgService.CreateProduct tp ⟨sku1Pg, []⟩).2.calls = 0) :=
  ⟨⟨by decide, by decide⟩,
    CreateProduct_existing_no_write pgService tp ⟨"sku1", "upc0", "name0"⟩ sku1Pg sku1Pg
      (by decide) (by decide)⟩

/-- C3: on a database with no row for `p.Sku` on which the lookup, begin,
write and commit statements succeed, `CreateProduct(p)` returns `nil`, the
calls issued are the lookup, `BeginTransaction`, `SaveProduct` with exactly
`p`, and `Commit`, and a subsequent `GetProduct(p.Sku)` of the service
returns exactly `p` with no error. The product need not even be well-formed. -/
theorem CreateProduct_then_GetProduct (pg : Pg) (p : Product)
    (hs : pg.faults.select = none) (hb : pg.faults.begin = none)
    (hu : pg.faults.update = none) (hi : pg.faults.insert = none)
    (hc : pg.faults.commit = none)
    (habs : selectRow pg.rows p.Sku = none) :
    (pgService.CreateProduct p ⟨pg, []⟩).1 = none
      ∧ (pgService.CreateProduct p ⟨pg, []⟩).2.calls
          = [Call.GetProduct p.Sku, Call.BeginTransaction, Call.SaveProduct p (),
             Call.Commit ()]
      ∧ (pgService.GetProduct p.Sku (pgService.CreateProduct p ⟨pg, []⟩).2).1 = (p, none) := by
  rw [pgService_create_absent ⟨pg, []⟩ p hs hb hu hi hc habs]
  refine ⟨rfl, rfl, ?_⟩
  have hget := dbRepo_GetProduct_present
    { pg with rows := insertRow pg.rows p.Sku p.Upc p.Name, tx := none } p.Sku p hs
    (selectRow_insertRow_absent pg.rows p habs)
  have hget2 : pgService.repo.GetProduct p.Sku []
      { pg with rows := insertRow pg.rows p.Sku p.Upc p.Name, tx := none }
      = ((p, none), { pg with rows := insertRow pg.rows p.Sku p.Upc p.Name, tx := none }) :=
    hget
  simp [service.GetProduct, hget2]

/-- C3 at the empty database and the product `sku1, upc1, name1`. -/
theorem CreateProduct_then_GetProduct_witness :
    selectRow emptyPg.rows tp.Sku = none
      ∧ ((pgService.CreateProduct tp ⟨emptyPg, []⟩).1 = none
        ∧ (pgService.CreateProduct tp ⟨emptyPg, []⟩).2.calls
            = [Call.GetProduct tp.Sku, Call.BeginTransaction, Call.SaveProduct tp (),
               Call.Commit ()]
        ∧ (pgService.GetProduct tp.Sku (pgService.CreateProduct tp ⟨emptyPg, []⟩).2).1
            = (tp, none)) :=
  ⟨by decide, CreateProduct_then_GetProduct emptyPg tp rfl rfl rfl rfl rfl (by decide)⟩

/-! ## Validation and error classification (C4, C5, C6) -/

/-- C4 (as stated, refuted): the service does not validate. `CreateProduct` of
a product with the empty sku looks up, begins, writes and commits, returns
`nil` and persists the product; `GetProduct("")` queries the store and
returns a not-found error. -/
theorem service_does_not_validate :
    (pgService.CreateProduct ⟨"", "upc1", "name1"⟩ ⟨emptyPg, []⟩).1 = none
      ∧ (pgService.CreateProduct ⟨"", "upc1", "name1"⟩ ⟨emptyPg, []⟩).2.calls
          = [Call.GetProduct "", Call.BeginTransaction,
             Call.SaveProduct ⟨"", "upc1", "name1"⟩ (), Call.Commit ()]
      ∧ (pgService.CreateProduct ⟨"", "upc1", "name1"⟩ ⟨emptyPg, []⟩).2.state.rows
          = [⟨"", "upc1", "name1"⟩]
      ∧ (pgService.GetProduct "" ⟨emptyPg, []⟩).2.calls = [Call.GetProduct ""]
      ∧ (pgService.GetProduct "" ⟨emptyPg, []⟩).1.2
          = some (Error.withStack (Error.withStack ErrNotFound)) := by
  decide

/-- C4 (amended): the HTTP handlers validate. For every product with an empty
sku, an empty upc or an empty name, the `Create` handler renders
`ErrInvalidRequest` and leaves the world untouched: the service is not
invoked and no store call is issued. For the empty sku, the `GetProduct`
handler renders `ErrInvalidRequest` and leaves the world untouched. -/
theorem handlers_reject_invalid {σ τ : Type} (a : service σ τ) (p : Product)
    (w : World σ τ) (h : p.Sku = "" ∨ p.Upc = "" ∨ p.Name = "") :
    CatalogApi.Create a p w
        = (Response.ErrInvalidRequest (Error.new "missing required field(s)"), w)
      ∧ CatalogApi.GetProduct a "" w
        = (Response.ErrInvalidRequest (Error.new "sku is required"), w) := by
  constructor
  · have hb : CreateProductRequest.Bind p = some (Error.new "missing required field(s)") := by
      rcases h with h | h | h <;> simp [CreateProductRequest.Bind, h]
    simp [CatalogApi.Create, hb]
  · simp [CatalogApi.GetProduct]

/-- C4 (amended) at a product with the empty sku. -/
theorem handlers_reject_invalid_witness :
    ((⟨"", "upc1", "name1"⟩ : Product).Sku = "")
      ∧ (CatalogApi.Create pgService ⟨"", "upc1", "name1"⟩ ⟨emptyPg, []⟩
          = (Response.ErrInvalidRequest (Error.new "missing required field(s)"),
              ⟨emptyPg, []⟩)
        ∧ CatalogApi.GetProduct pgService "" ⟨emptyPg, []⟩
          = (Response.ErrInvalidRequest (Error.new "sku is required"), ⟨emptyPg, []⟩)) :=
  ⟨rfl, handlers_reject_invalid pgService ⟨"", "upc1", "name1"⟩ ⟨emptyPg, []⟩ (Or.inl rfl)⟩

/-- C5: (1) on a database whose lookup statement succeeds and whose table has no
row for `sku`, the error of the service's `GetProduct(sku)` is recognised as
`core.ErrNotFound`, and for a non-empty `sku` the lookup handler renders
`ErrNotFound`. (2) Over every repository, the error of the service's
`GetProduct` is recognised as not-found exactly when the repository's error
is; for a non-empty `sku` the handler renders `ErrNotFound` when it is, and
`ErrInternalServer` when the repository returned an error that is not. -/
theorem GetProduct_not_found_classification :
    (∀ (pg : Pg) (sku : String),
        pg.faults.select = none → selectRow pg.rows sku = none →
        errors.Is (pgService.GetProduct sku ⟨pg, []⟩).1.2 ErrNotFound = true
          ∧ (sku ≠ "" →
              (CatalogApi.GetProduct pgService sku ⟨pg, []⟩).1 = Response.ErrNotFound))
      ∧ (∀ (σ τ : Type) (s : service σ τ) (sku : String) (w : World σ τ),
          errors.Is (s.GetProduct sku w).1.2 ErrNotFound
              = errors.Is (s.repo.GetProduct sku [] w.state).1.2 ErrNotFound
            ∧ (sku ≠ "" →
                errors.Is (s.repo.GetProduct sku [] w.state).1.2 ErrNotFound = true →
                (CatalogApi.GetProduct s sku w).1 = Response.ErrNotFound)
            ∧ (sku ≠ "" →
                (s.repo.GetProduct sku [] w.state).1.2 ≠ none →
                errors.Is (s.repo.GetProduct sku [] w.state).1.2 ErrNotFound = false →
                (CatalogApi.GetProduct s sku w).1 = Response.ErrInternalServer)) := by
  have hB : ∀ (σ τ : Type) (s : service σ τ) (sku : String) (w : World σ τ),
      errors.Is (s.GetProduct sku w).1.2 ErrNotFound
          = errors.Is (s.repo.GetProduct sku [] w.state).1.2 ErrNotFound
        ∧ (sku ≠ "" →
            errors.Is (s.repo.GetProduct sku [] w.state).1.2 ErrNotFound = true →
            (CatalogApi.GetProduct s sku w).1 = Response.ErrNotFound)
        ∧ (sku ≠ "" →
            (s.repo.GetProduct sku [] w.state).1.2 ≠ none →
            errors.Is (s.repo.GetProduct sku [] w.state).1.2 ErrNotFound = false →
            (CatalogApi.GetProduct s sku w).1 = Response.ErrInternalServer) := by
    intro σ τ s sku w
    rcases hget : s.repo.GetProduct sku [] w.state with ⟨⟨q, err⟩, st1⟩
    cases err with
    | none =>
      simp [service.GetProduct, hget, errors.Is]
    | some e =>
      have hw := Is_WithStack (some e)
      simp only [errors.WithStack] at hw
      refine ⟨?_, ?_, ?_⟩
      · simp [service.GetProduct, hget, errors.WithStack, hw]
      · intro hne hnf
        simp only [] at hnf
        simp [CatalogApi.GetProduct, hne, service.GetProduct, hget, errors.WithStack, hw, hnf]
      · intro hne _ hnf
        simp only [] at hnf
        simp [CatalogApi.GetProduct, hne, service.GetProduct, hget, errors.WithStack, hw, hnf]
  refine ⟨?_, hB⟩
  intro pg sku hs habs
  have hget : pgService.repo.GetProduct sku [] pg
      = ((Product.zero, some (Error.withStack ErrNotFound)), pg) :=
    dbRepo_GetProduct_absent pg sku hs habs
  have hnf : errors.Is (pgService.repo.GetProduct sku []
      (⟨pg, []⟩ : World Pg PgTx).state).1.2 ErrNotFound = true := by
    rw [hget]
    exact (Is_WithStack (some ErrNotFound)).trans (by decide)
  obtain ⟨h1, h2, _⟩ := hB Pg PgTx pgService sku ⟨pg, []⟩
  exact ⟨h1.trans hnf, fun hne => h2 hne hnf⟩

/-- C5 at the empty database and the code `absent-code`. -/
theorem GetProduct_not_found_classification_witness :
    (emptyPg.faults.select = none ∧ selectRow emptyPg.rows "absent-code" = none)
      ∧ errors.Is (pgService.GetProduct "absent-code" ⟨emptyPg, []⟩).1.2 ErrNotFound = true
      ∧ (CatalogApi.GetProduct pgService "absent-code" ⟨emptyPg, []⟩).1
          = Response.ErrNotFound
      ∧ (CatalogApi.GetProduct pgService "sku1" ⟨selectFailsPg, []⟩).1
          = Response.ErrInternalServer :=
  ⟨⟨rfl, by decide⟩,
    (GetProduct_not_found_classification.1 emptyPg "absent-code" rfl (by decide)).1,
    (GetProduct_not_found_classification.1 emptyPg "absent-code" rfl (by decide)).2
      (by decide),
    (GetProduct_not_found_classification.2 Pg PgTx pgService "sku1"
      ⟨selectFailsPg, []⟩).2.2 (by decide) (by decide) (by decide)⟩

/-- C6: when the existence check `GetProduct(p.Sku)` returns an error `e` that
is not recognised as `core.ErrNotFound`, `CreateProduct(p)` returns
`WithStack(e)`, which is still not recognised as not-found; the only call
issued is the lookup, so `BeginTransaction`, `SaveProduct`, `Commit` and
`Rollback` are called zero times, and the store is left as the lookup left
it. -/
theorem CreateProduct_lookup_failure {σ τ : Type} (s : service σ τ) (p q : Product)
    (e : Error) (st st1 : σ)
    (hget : s.repo.GetProduct p.Sku [] st = ((q, some e), st1))
    (hnf : errors.Is (some e) ErrNotFound = false) :
    s.CreateProduct p ⟨st, []⟩
        = (some (Error.withStack e), ⟨st1, [Call.GetProduct p.Sku]⟩)
      ∧ errors.Is (s.CreateProduct p ⟨st, []⟩).1 ErrNotFound = false
      ∧ writeCalls (s.CreateProduct p ⟨st, []⟩).2.calls = 0 := by
  have h : s.CreateProduct p ⟨st, []⟩
      = (some (Error.withStack e), ⟨st1, [Call.GetProduct p.Sku]⟩) := by
    simp [service.CreateProduct, hget, hnf, World.record, errors.WithStack]
  refine ⟨h, ?_, ?_⟩
  · rw [h]
    have := Is_WithStack (some e)
    simpa [errors.WithStack, hnf] using this
  · rw [h]; simp [writeCalls]

/-- C6 at a database whose lookup statement fails with a connection error. -/
theorem CreateProduct_lookup_failure_witness :
    (pgService.repo.GetProduct tp.Sku [] selectFailsPg
          = ((Product.zero, some (Error.withStack (Error.new "connection refused"))),
              selectFailsPg)
        ∧ errors.Is (some (Error.withStack (Error.new "connection refused"))) ErrNotFound
            = false)
      ∧ (pgService.CreateProduct tp ⟨selectFailsPg, []⟩
            = (some (Error.withStack (Error.withStack (Error.new "connection refused"))),
                ⟨selectFailsPg, [Call.GetProduct tp.Sku]⟩)
        ∧ errors.Is (pgService.CreateProduct tp ⟨selectFailsPg, []⟩).1 ErrNotFound = false
        ∧ writeCalls (pgService.CreateProduct tp ⟨selectFailsPg, []⟩).2.calls = 0) :=
  ⟨⟨by decide, by decide⟩,
    CreateProduct_lookup_failure pgService tp Product.zero
      (Error.withStack (Error.new "connection refused")) selectFailsPg selectFailsPg
      (by decide) (by decide)⟩

/-! ## The transaction boundary (C7, C8, C9, C10) -/

/-- C7: (1) over every repository, when the lookup lets the creation proceed,
`BeginTransaction` returns `tx` and `SaveProduct` fails with `e`,
`CreateProduct(p)` calls `Rollback` on `tx`, never calls `Commit`, and returns
`WithStack(e)`, whatever `Rollback` returns. (2) Over the database model, in
which only `COMMIT` makes a transaction's writes visible, an execution of
`CreateProduct` without `Commit` leaves the committed rows unchanged, and
every subsequent `GetProduct` of the service returns what it would have
returned before the call: the pre-existing record or not-found. -/
theorem CreateProduct_write_failure :
    (∀ (σ τ : Type) (s : service σ τ) (p q : Product) (err re : Option Error) (e : Error)
        (tx : τ) (st st1 st2 st3 st4 : σ),
        s.repo.GetProduct p.Sku [] st = ((q, err), st1) →
        (err.isSome && !errors.Is err ErrNotFound) = false →
        q.Sku = "" →
        s.repo.BeginTransaction st1 = (Except.ok tx, st2) →
        s.repo.SaveProduct p [tx] st2 = (some e, st3) →
        s.repo.Rollback tx st3 = (re, st4) →
        (s.CreateProduct p ⟨st, []⟩).1 = some (Error.withStack e)
          ∧ (s.CreateProduct p ⟨st, []⟩).2.calls
              = [Call.GetProduct p.Sku, Call.BeginTransaction, Call.SaveProduct p tx,
                 Call.Rollback tx]
          ∧ commitCalls (s.CreateProduct p ⟨st, []⟩).2.calls = 0
          ∧ (s.CreateProduct p ⟨st, []⟩).2.state = st4)
      ∧ (∀ (pg : Pg) (p : Product),
          commitCalls (pgService.CreateProduct p ⟨pg, []⟩).2.calls = 0 →
          (pgService.CreateProduct p ⟨pg, []⟩).2.state.rows = pg.rows
            ∧ ∀ sku, (pgService.GetProduct sku (pgService.CreateProduct p ⟨pg, []⟩).2).1
                = (pgService.GetProduct sku ⟨pg, []⟩).1) := by
  constructor
  · intro σ τ s p q err re e tx st st1 st2 st3 st4 hget hpass hq hbegin hsave hrb
    rw [CreateProduct_save_failed s p q err re e tx ⟨st, []⟩ st1 st2 st3 st4
      hget hpass hq hbegin hsave hrb]
    exact ⟨rfl, rfl, by simp [commitCalls], rfl⟩
  · intro pg p hno
    have h := pgService_no_commit_committed pg p hno
    refine ⟨?_, fun sku => service_GetProduct_committed sku _ ⟨pg, []⟩ h⟩
    have := congrArg Pg.rows h
    exact this

/-- C7 at an empty database whose `INSERT` and `ROLLBACK` fail. -/
theorem CreateProduct_write_failure_witness :
    ((pgService.CreateProduct tp ⟨insertFailsPg, []⟩).1
          = some (Error.withStack (Error.new "insert failed"))
        ∧ (pgService.CreateProduct tp ⟨insertFailsPg, []⟩).2.calls
            = [Call.GetProduct tp.Sku, Call.BeginTransaction, Call.SaveProduct tp (),
               Call.Rollback ()]
        ∧ commitCalls (pgService.CreateProduct tp ⟨insertFailsPg, []⟩).2.calls = 0
        ∧ (pgService.CreateProduct tp ⟨insertFailsPg, []⟩).2.state
            = { insertFailsPg with tx := some [] })
      ∧ ((pgService.CreateProduct tp ⟨insertFailsPg, []⟩).2.state.rows = insertFailsPg.rows
        ∧ ∀ sku, (pgService.GetProduct sku (pgService.CreateProduct tp ⟨insertFailsPg, []⟩).2).1
            = (pgService.GetProduct sku ⟨insertFailsPg, []⟩).1) :=
  ⟨CreateProduct_write_failure.1 Pg PgTx pgService tp Product.zero
      (some (Error.withStack ErrNotFound)) (some (Error.new "rollback failed"))
      (Error.new "insert failed") () insertFailsPg insertFailsPg
      { insertFailsPg with tx := some [] } { insertFailsPg with tx := some [] }
      { insertFailsPg with tx := some [] }
      (by decide) (by decide) rfl rfl (by decide) (by decide),
    CreateProduct_write_failure.2 insertFailsPg tp (by decide)⟩

/-- C8: when the lookup lets the creation proceed, `BeginTransaction` returns
`tx`, `SaveProduct` succeeds and `Commit` fails with `e`, `CreateProduct(p)`
calls `Rollback` on the same `tx` right after the failed `Commit` and returns
`WithStack(e)`, not `nil`, whatever `Rollback` returns. -/
theorem CreateProduct_commit_failure {σ τ : Type} (s : service σ τ) (p q : Product)
    (err re : Option Error) (e : Error) (tx : τ) (st st1 st2 st3 st4 st5 : σ)
    (hget : s.repo.GetProduct p.Sku [] st = ((q, err), st1))
    (hpass : (err.isSome && !errors.Is err ErrNotFound) = false)
    (hq : q.Sku = "")
    (hbegin : s.repo.BeginTransaction st1 = (Except.ok tx, st2))
    (hsave : s.repo.SaveProduct p [tx] st2 = (none, st3))
    (hcommit : s.repo.Commit tx st3 = (some e, st4))
    (hrb : s.repo.Rollback tx st4 = (re, st5)) :
    (s.CreateProduct p ⟨st, []⟩).1 = some (Error.withStack e)
      ∧ (s.CreateProduct p ⟨st, []⟩).2.calls
          = [Call.GetProduct p.Sku, Call.BeginTransaction, Call.SaveProduct p tx,
             Call.Commit tx, Call.Rollback tx]
      ∧ (s.CreateProduct p ⟨st, []⟩).2.state = st5 := by
  rw [CreateProduct_commit_failed s p q err re e tx ⟨st, []⟩ st1 st2 st3 st4 st5
    hget hpass hq hbegin hsave hcommit hrb]
  exact ⟨rfl, rfl, rfl⟩

/-- C8 at an empty database whose `COMMIT` fails. -/
theorem CreateProduct_commit_failure_witness :
    (pgService.repo.Commit () { commitFailsPg with tx := some [tp] }
        = (some (Error.new "commit failed"), { commitFailsPg with tx := some [tp] }))
      ∧ ((pgService.CreateProduct tp ⟨commitFailsPg, []⟩).1
          = some (Error.withStack (Error.new "commit failed"))
        ∧ (pgService.CreateProduct tp ⟨commitFailsPg, []⟩).2.calls
            = [Call.GetProduct tp.Sku, Call.BeginTransaction, Call.SaveProduct tp (),
               Call.Commit (), Call.Rollback ()]
        ∧ (pgService.CreateProduct tp ⟨commitFailsPg, []⟩).2.state = commitFailsPg) :=
  ⟨by decide,
    CreateProduct_commit_failure pgService tp Product.zero
      (some (Error.withStack ErrNotFound)) none (Error.new "commit failed") ()
      commitFailsPg commitFailsPg { commitFailsPg with tx := some [] }
      { commitFailsPg with tx := some [tp] } { commitFailsPg with tx := some [tp] }
      commitFailsPg
      (by decide) (by decide) rfl rfl (by decide) (by decide) (by decide)⟩

/-- C9: on every execution of `CreateProduct` that reaches a rollback, the
returned error is `WithStack(e)` for the error `e` of the failed `SaveProduct`
or `Commit`, and it is that same value whatever `Rollback` does: replacing
the transaction's `Rollback` by any other behaviour (succeeding or failing)
leaves the returned error unchanged, so it is never the rollback error and
never `nil`. -/
theorem CreateProduct_rollback_keeps_error {σ τ : Type} (s : service σ τ) (p : Product)
    (st : σ) (tx : τ)
    (hreach : Call.Rollback tx ∈ (s.CreateProduct p ⟨st, []⟩).2.calls) :
    ∃ e, triggerError s p st = some e ∧
      (s.CreateProduct p ⟨st, []⟩).1 = some (Error.withStack e) ∧
      ∀ rb : τ → σ → Option Error × σ,
        ((withRollback s rb).CreateProduct p ⟨st, []⟩).1 = some (Error.withStack e) := by
  rcases hget : s.repo.GetProduct p.Sku [] st with ⟨⟨q, err⟩, st1⟩
  cases hpass : (err.isSome && !errors.Is err ErrNotFound)
  · by_cases hq : q.Sku = ""
    · rcases hbegin : s.repo.BeginTransaction st1 with ⟨_ | tx1, st2⟩
      · rw [CreateProduct_begin_failed s p q err _ ⟨st, []⟩ st1 st2 hget hpass hq hbegin] at hreach
        simp at hreach
      · rcases hsave : s.repo.SaveProduct p [tx1] st2 with ⟨_ | e, st3⟩
        · rcases hcommit : s.repo.Commit tx1 st3 with ⟨_ | e, st4⟩
          · rw [CreateProduct_committed s p q err tx1 ⟨st, []⟩ st1 st2 st3 st4
              hget hpass hq hbegin hsave hcommit] at hreach
            simp at hreach
          · refine ⟨e, ?_, ?_, ?_⟩
            · simp [triggerError, hget, hbegin, hsave, hcommit]
            · rcases hrb : s.repo.Rollback tx1 st4 with ⟨re, st5⟩
              rw [CreateProduct_commit_failed s p q err re e tx1 ⟨st, []⟩
                st1 st2 st3 st4 st5 hget hpass hq hbegin hsave hcommit hrb]
            · intro rb
              rcases hrb : rb tx1 st4 with ⟨re, st5⟩
              rw [CreateProduct_commit_failed (withRollback s rb) p q err re e tx1 ⟨st, []⟩
                st1 st2 st3 st4 st5 hget hpass hq hbegin hsave hcommit hrb]
        · refine ⟨e, ?_, ?_, ?_⟩
          · simp [triggerError, hget, hbegin, hsave]
          · rcases hrb : s.repo.Rollback tx1 st3 with ⟨re, st4⟩
            rw [CreateProduct_save_failed s p q err re e tx1 ⟨st, []⟩
              st1 st2 st3 st4 hget hpass hq hbegin hsave hrb]
          · intro rb
            rcases hrb : rb tx1 st3 with ⟨re, st4⟩
            rw [CreateProduct_save_failed (withRollback s rb) p q err re e tx1 ⟨st, []⟩
              st1 st2 st3 st4 hget hpass hq hbegin hsave hrb]
    · rw [CreateProduct_found s p q err ⟨st, []⟩ st1 hget hpass hq] at hreach
      simp [World.record] at hreach
  · rw [CreateProduct_rejected s p q err ⟨st, []⟩ st1 hget hpass] at hreach
    simp [World.record] at hreach

/-- C9 at an empty database whose `INSERT` and `ROLLBACK` fail. -/
theorem CreateProduct_rollback_keeps_error_witness :
    (Call.Rollback () ∈ (pgService.CreateProduct tp ⟨insertFailsPg, []⟩).2.calls
        ∧ triggerError pgService tp insertFailsPg = some (Error.new "insert failed"))
      ∧ ∃ e, triggerError pgService tp insertFailsPg = some e ∧
          (pgService.CreateProduct tp ⟨insertFailsPg, []⟩).1 = some (Error.withStack e) ∧
          ∀ rb : PgTx → Pg → Option Error × Pg,
            ((withRollback pgService rb).CreateProduct tp ⟨insertFailsPg, []⟩).1
              = some (Error.withStack e) :=
  ⟨⟨by decide, by decide⟩,
    CreateProduct_rollback_keeps_error pgService tp insertFailsPg () (by decide)⟩

/-- C10 (as stated, refuted): on a database whose `COMMIT` fails, the
transaction is begun, and `CreateProduct` calls `Commit` and then `Rollback`
on it: two terminal calls, not one. -/
theorem two_terminal_calls_when_commit_fails :
    (pgService.CreateProduct tp ⟨commitFailsPg, []⟩).2.calls
        = [Call.GetProduct "sku1", Call.BeginTransaction, Call.SaveProduct tp (),
           Call.Commit (), Call.Rollback ()]
      ∧ commitCalls (pgService.CreateProduct tp ⟨commitFailsPg, []⟩).2.calls
          + rollbackCalls (pgService.CreateProduct tp ⟨commitFailsPg, []⟩).2.calls = 2 := by
  decide

/-- C10 (amended): on every path of `CreateProduct` on which
`BeginTransaction` succeeds with `tx`: if `SaveProduct` fails there is no
`Commit` and exactly one `Rollback`; if `SaveProduct` and `Commit` succeed
there is exactly one `Commit` and no `Rollback`; if `SaveProduct` succeeds and
`Commit` fails there is exactly one `Commit` and exactly one `Rollback`. Every
terminal call is on `tx`. -/
theorem CreateProduct_terminal_calls {σ τ : Type} (s : service σ τ) (p q : Product)
    (err : Option Error) (tx : τ) (st st1 st2 : σ)
    (hget : s.repo.GetProduct p.Sku [] st = ((q, err), st1))
    (hpass : (err.isSome && !errors.Is err ErrNotFound) = false)
    (hq : q.Sku = "")
    (hbegin : s.repo.BeginTransaction st1 = (Except.ok tx, st2)) :
    ((s.repo.SaveProduct p [tx] st2).1 ≠ none →
        commitCalls (s.CreateProduct p ⟨st, []⟩).2.calls = 0
          ∧ rollbackCalls (s.CreateProduct p ⟨st, []⟩).2.calls = 1)
      ∧ ((s.repo.SaveProduct p [tx] st2).1 = none →
          (s.repo.Commit tx (s.repo.SaveProduct p [tx] st2).2).1 = none →
          commitCalls (s.CreateProduct p ⟨st, []⟩).2.calls = 1
            ∧ rollbackCalls (s.CreateProduct p ⟨st, []⟩).2.calls = 0)
      ∧ ((s.repo.SaveProduct p [tx] st2).1 = none →
          (s.repo.Commit tx (s.repo.SaveProduct p [tx] st2).2).1 ≠ none →
          commitCalls (s.CreateProduct p ⟨st, []⟩).2.calls = 1
            ∧ rollbackCalls (s.CreateProduct p ⟨st, []⟩).2.calls = 1)
      ∧ (∀ t, Call.Commit t ∈ (s.CreateProduct p ⟨st, []⟩).2.calls
            ∨ Call.Rollback t ∈ (s.CreateProduct p ⟨st, []⟩).2.calls → t = tx) := by
  rcases hsave : s.repo.SaveProduct p [tx] st2 with ⟨_ | e, st3⟩
  · rcases hcommit : s.repo.Commit tx st3 with ⟨_ | e, st4⟩
    · rw [CreateProduct_committed s p q err tx ⟨st, []⟩ st1 st2 st3 st4
        hget hpass hq hbegin hsave hcommit]
      simp [commitCalls, rollbackCalls]
    · rcases hrb : s.repo.Rollback tx st4 with ⟨re, st5⟩
      rw [CreateProduct_commit_failed s p q err re e tx ⟨st, []⟩ st1 st2 st3 st4 st5
        hget hpass hq hbegin hsave hcommit hrb]
      simp [commitCalls, rollbackCalls]
  · rcases hrb : s.repo.Rollback tx st3 with ⟨re, st4⟩
    rw [CreateProduct_save_failed s p q err re e tx ⟨st, []⟩ st1 st2 st3 st4
      hget hpass hq hbegin hsave hrb]
    simp [commitCalls, rollbackCalls]

/-- C10 (amended) at an empty database whose `COMMIT` fails. -/
theorem CreateProduct_terminal_calls_witness :
    (pgService.repo.BeginTransaction commitFailsPg
        = (Except.ok (), { commitFailsPg with tx := some [] }))
      ∧ commitCalls (pgService.CreateProduct tp ⟨commitFailsPg, []⟩).2.calls = 1
      ∧ rollbackCalls (pgService.CreateProduct tp ⟨commitFailsPg, []⟩).2.calls = 1 :=
  ⟨rfl,
    (CreateProduct_terminal_calls pgService tp Product.zero
      (some (Error.withStack ErrNotFound)) () commitFailsPg commitFailsPg
      { commitFailsPg with tx := some [] }
      (by decide) (by decide) rfl rfl).2.2.1 (by decide) (by decide)⟩

/-! ## The upsert of `SaveProduct` (C11) -/

theorem updateRows_skus (t : List Product) (sku upc name : String) :
    ((updateRows t sku upc name).map fun r => r.Sku) = t.map fun r => r.Sku := by
  induction t with
  | nil => rfl
  | cons r t ih =>
    simp only [updateRows, List.map_cons] at ih ⊢
    rw [ih]
    by_cases h : r.Sku = sku <;> simp [h]

theorem rowsFor_updateRows (t : List Product) (sku upc name sku2 : String) :
    rowsFor (updateRows t sku upc name) sku2 = rowsFor t sku2 := by
  rw [rowsFor_eq_count, rowsFor_eq_count, updateRows_skus]

theorem selectRow_cons (r : Product) (t : List Product) (sku : String) :
    selectRow (r :: t) sku = if r.Sku = sku then some r else selectRow t sku := by
  by_cases h : r.Sku = sku
  · have hb : (r.Sku == sku) = true := by simp [h]
    rw [if_pos h]
    simp only [selectRow, List.find?_cons, hb]
  · have hb : (r.Sku == sku) = false := by simp [h]
    rw [if_neg h]
    simp only [selectRow, List.find?_cons, hb]

theorem updateRows_cons (r : Product) (t : List Product) (sku upc name : String) :
    updateRows (r :: t) sku upc name
      = (if r.Sku = sku then ⟨r.Sku, upc, name⟩ else r) :: updateRows t sku upc name := by
  simp [updateRows]

theorem selectRow_updateRows_same (t : List Product) (p : Product) :
    selectRow (updateRows t p.Sku p.Upc p.Name) p.Sku
      = (selectRow t p.Sku).map fun _ => p := by
  induction t with
  | nil => rfl
  | cons r t ih =>
    rw [updateRows_cons, selectRow_cons, selectRow_cons, ih]
    by_cases h : r.Sku = p.Sku
    · simp [h]
    · simp [h]

theorem selectRow_updateRows_other (t : List Product) (sku upc name sku2 : String)
    (hne : sku2 ≠ sku) :
    selectRow (updateRows t sku upc name) sku2 = selectRow t sku2 := by
  induction t with
  | nil => rfl
  | cons r t ih =>
    rw [updateRows_cons, selectRow_cons, selectRow_cons, ih]
    by_cases h : r.Sku = sku
    · have h2 : ¬ sku = sku2 := fun e => hne e.symm
      simp [h, h2]
    · simp [h]

theorem filter_updateRows (t : List Product) (sku upc name : String) :
    (updateRows t sku upc name).filter (fun r => r.Sku != sku)
      = t.filter (fun r => r.Sku != sku) := by
  induction t with
  | nil => rfl
  | cons r t ih =>
    rw [updateRows_cons, List.filter_cons, List.filter_cons, ih]
    by_cases h : r.Sku = sku
    · simp [h]
    · simp [h]

/-- An update with the values that the rows of that sku already carry changes nothing. -/
theorem updateRows_fixed (t : List Product) (p : Product)
    (h : ∀ r ∈ t, r.Sku = p.Sku → r = p) :
    updateRows t p.Sku p.Upc p.Name = t := by
  unfold updateRows
  conv_rhs => rw [← List.map_id t]
  apply List.map_congr_left
  intro r hr
  by_cases hs : r.Sku = p.Sku
  · have := h r hr hs
    subst this
    simp
  · simp [hs]

theorem updateRows_rows (t : List Product) (p : Product) :
    ∀ r ∈ updateRows t p.Sku p.Upc p.Name, r.Sku = p.Sku → r = p := by
  intro r hr hs
  simp only [updateRows, List.mem_map] at hr
  obtain ⟨r0, _, rfl⟩ := hr
  by_cases h0 : r0.Sku = p.Sku
  · simp [h0]
  · simp [h0] at hs

theorem Pg.table_setTable (pg : Pg) (ex : Executor) (t : List Product) :
    (pg.setTable ex t).table ex = some t := by
  cases ex <;> rfl

theorem Pg.setTable_setTable (pg : Pg) (ex : Executor) (t t2 : List Product) :
    (pg.setTable ex t).setTable ex t2 = pg.setTable ex t2 := by
  cases ex <;> rfl

theorem Pg.faults_setTable (pg : Pg) (ex : Executor) (t : List Product) :
    (pg.setTable ex t).faults = pg.faults := by
  cases ex <;> rfl

/-- With no failing statement, `SaveProduct` of a sku that has a row updates. -/
theorem dbRepo_SaveProduct_update (pg : Pg) (p : Product) (txs : List PgTx)
    (t : List Product) (hu : pg.faults.update = none)
    (ht : pg.table (executor txs) = some t) (hne : rowsFor t p.Sku ≠ 0) :
    dbRepo.SaveProduct p txs pg
      = (none, pg.setTable (executor txs) (updateRows t p.Sku p.Upc p.Name)) := by
  simp [dbRepo.SaveProduct, Pg.ExecUpdate, hu, ht, hne]

/-- With no failing statement, `SaveProduct` of a sku that has no row inserts. -/
theorem dbRepo_SaveProduct_absent (pg : Pg) (p : Product) (txs : List PgTx)
    (t : List Product) (hu : pg.faults.update = none) (hi : pg.faults.insert = none)
    (ht : pg.table (executor txs) = some t) (h0 : rowsFor t p.Sku = 0) :
    dbRepo.SaveProduct p txs pg
      = (none, pg.setTable (executor txs) (insertRow t p.Sku p.Upc p.Name)) := by
  have habs := (rowsFor_eq_zero_iff t p.Sku).mp h0
  simp [dbRepo.SaveProduct, Pg.ExecUpdate, Pg.ExecInsert, hu, hi, ht, h0,
    Pg.table_setTable, Pg.setTable_setTable, Pg.faults_setTable,
    updateRows_absent t p.Sku p.Upc p.Name habs]

/-- Saving again a product whose values the rows of its sku already carry
changes nothing. -/
theorem dbRepo_SaveProduct_again (pg : Pg) (p : Product) (txs : List PgTx)
    (t : List Product) (hu : pg.faults.update = none)
    (hfix : ∀ r ∈ t, r.Sku = p.Sku → r = p) (hne : rowsFor t p.Sku ≠ 0) :
    dbRepo.SaveProduct p txs (pg.setTable (executor txs) t)
      = (none, pg.setTable (executor txs) t) := by
  have hu2 : (pg.setTable (executor txs) t).faults.update = none := by
    rw [Pg.faults_setTable]; exact hu
  rw [dbRepo_SaveProduct_update (pg.setTable (executor txs) t) p txs t hu2
    (Pg.table_setTable pg (executor txs) t) hne]
  rw [Pg.setTable_setTable, updateRows_fixed t p hfix]

/-- C11: with no failing statement, `SaveProduct(p)` on a table `t` (the
committed rows when no transaction is passed, the working copy otherwise)
returns `nil` and leaves a table `t2` in which the lookup of `p.Sku` returns
exactly `p`, whether or not a row existed; the lookup of every other sku and
the list of rows with another sku are those of `t`; the number of rows for
`p.Sku` is the one of `t` when a row existed and 1 otherwise, so no second
row is created and a keyed table stays keyed with exactly one row for
`p.Sku`; and saving `p` again leaves `t2` as it is. -/
theorem SaveProduct_upserts (pg : Pg) (p : Product) (txs : List PgTx) (t : List Product)
    (hu : pg.faults.update = none) (hi : pg.faults.insert = none)
    (ht : pg.table (executor txs) = some t) :
    ∃ t2, dbRepo.SaveProduct p txs pg = (none, pg.setTable (executor txs) t2)
      ∧ selectRow t2 p.Sku = some p
      ∧ (∀ sku, sku ≠ p.Sku → selectRow t2 sku = selectRow t sku)
      ∧ t2.filter (fun r => r.Sku != p.Sku) = t.filter (fun r => r.Sku != p.Sku)
      ∧ rowsFor t2 p.Sku = max 1 (rowsFor t p.Sku)
      ∧ (Keyed t → Keyed t2 ∧ rowsFor t2 p.Sku = 1)
      ∧ dbRepo.SaveProduct p txs (pg.setTable (executor txs) t2)
          = (none, pg.setTable (executor txs) t2) := by
  by_cases h0 : rowsFor t p.Sku = 0
  · have habs := (rowsFor_eq_zero_iff t p.Sku).mp h0
    have hall := (selectRow_eq_none_iff t p.Sku).mp habs
    have hone := rowsFor_insertRow_absent t p habs
    refine ⟨insertRow t p.Sku p.Upc p.Name,
      dbRepo_SaveProduct_absent pg p txs t hu hi ht h0,
      selectRow_insertRow_absent t p habs, ?_, ?_, ?_, ?_, ?_⟩
    · intro sku hne
      have h2 : ¬ p.Sku = sku := fun e => hne e.symm
      simp [selectRow, insertRow, List.find?_append, h2]
    · simp [insertRow, List.filter_append]
    · rw [hone, h0]; rfl
    · intro hk
      refine ⟨?_, hone⟩
      unfold Keyed at hk ⊢
      simp only [insertRow, List.map_append, List.map_cons, List.map_nil]
      apply List.Nodup.append hk (List.nodup_singleton _)
      intro a ha hb
      simp only [List.mem_singleton] at hb
      subst hb
      obtain ⟨r, hr, hs⟩ := List.mem_map.mp ha
      exact hall r hr hs
    · apply dbRepo_SaveProduct_again pg p txs _ hu
      · intro r hr hs
        simp only [insertRow, List.mem_append, List.mem_singleton] at hr
        rcases hr with hr | hr
        · exact absurd hs (hall r hr)
        · rw [hr]
      · rw [hone]; exact Nat.one_ne_zero
  · have hsome : ∃ r, selectRow t p.Sku = some r := by
      cases hsel : selectRow t p.Sku with
      | none => exact absurd ((rowsFor_eq_zero_iff t p.Sku).mpr hsel) h0
      | some r => exact ⟨r, rfl⟩
    obtain ⟨r, hsel⟩ := hsome
    have hcount := rowsFor_updateRows t p.Sku p.Upc p.Name p.Sku
    refine ⟨updateRows t p.Sku p.Upc p.Name,
      dbRepo_SaveProduct_update pg p txs t hu ht h0, ?_, ?_, ?_, ?_, ?_, ?_⟩
    · rw [selectRow_updateRows_same, hsel]; rfl
    · intro sku hne
      exact selectRow_updateRows_other t p.Sku p.Upc p.Name sku hne
    · exact filter_updateRows t p.Sku p.Upc p.Name
    · rw [hcount]
      have : 1 ≤ rowsFor t p.Sku := Nat.one_le_iff_ne_zero.mpr h0
      exact (Nat.max_eq_right this).symm
    · intro hk
      refine ⟨?_, ?_⟩
      · unfold Keyed at hk ⊢
        rw [updateRows_skus]; exact hk
      · rw [hcount]; exact rowsFor_of_keyed hk hsel
    · apply dbRepo_SaveProduct_again pg p txs _ hu (updateRows_rows t p)
      rw [hcount]; exact h0

/-- C11 at a table with rows for `sku1` and `sku2`, saving `sku1, upc1, name1`
on the connection. -/
theorem SaveProduct_upserts_witness :
    (twoRowsPg.faults.update = none ∧ twoRowsPg.faults.insert = none
        ∧ twoRowsPg.table (executor []) = some twoRowsPg.rows)
      ∧ (dbRepo.SaveProduct tp [] twoRowsPg).2.rows = [tp, ⟨"sku2", "upc2", "name2"⟩]
      ∧ ∃ t2, dbRepo.SaveProduct tp [] twoRowsPg = (none, twoRowsPg.setTable (executor []) t2)
        ∧ selectRow t2 tp.Sku = some tp
        ∧ (∀ sku, sku ≠ tp.Sku → selectRow t2 sku = selectRow twoRowsPg.rows sku)
        ∧ t2.filter (fun r => r.Sku != tp.Sku)
            = twoRowsPg.rows.filter (fun r => r.Sku != tp.Sku)
        ∧ rowsFor t2 tp.Sku = max 1 (rowsFor twoRowsPg.rows tp.Sku)
        ∧ (Keyed twoRowsPg.rows → Keyed t2 ∧ rowsFor t2 tp.Sku = 1)
        ∧ dbRepo.SaveProduct tp [] (twoRowsPg.setTable (executor []) t2)
            = (none, twoRowsPg.setTable (executor []) t2) :=
  ⟨⟨rfl, rfl, rfl⟩, by decide,
    SaveProduct_upserts twoRowsPg tp [] twoRowsPg.rows rfl rfl rfl⟩

/-! ## The queue, the existence test and a failed begin (C12, C13, C14) -/

/-- C12: whatever the repository does (record found or not, any failure at
any step), no `PublishProduct` call appears among the calls of
`CreateProduct`, and replacing the queue of the service by any other queue
leaves the result, the store and the calls of `CreateProduct` unchanged. -/
theorem CreateProduct_never_publishes {σ τ : Type} (s : service σ τ) (p : Product)
    (st : σ) :
    (∀ q, Call.PublishProduct q ∉ (s.CreateProduct p ⟨st, []⟩).2.calls)
      ∧ (∀ queue2 : Queue σ,
          ({ s with queue := queue2 } : service σ τ).CreateProduct p ⟨st, []⟩
            = s.CreateProduct p ⟨st, []⟩) := by
  refine ⟨?_, fun _ => rfl⟩
  intro pub
  rcases hget : s.repo.GetProduct p.Sku [] st with ⟨⟨q, err⟩, st1⟩
  cases hpass : (err.isSome && !errors.Is err ErrNotFound)
  · by_cases hq : q.Sku = ""
    · rcases hbegin : s.repo.BeginTransaction st1 with ⟨e | tx1, st2⟩
      · rw [CreateProduct_begin_failed s p q err e ⟨st, []⟩ st1 st2 hget hpass hq hbegin]
        simp
      · rcases hsave : s.repo.SaveProduct p [tx1] st2 with ⟨_ | e, st3⟩
        · rcases hcommit : s.repo.Commit tx1 st3 with ⟨_ | e, st4⟩
          · rw [CreateProduct_committed s p q err tx1 ⟨st, []⟩ st1 st2 st3 st4
              hget hpass hq hbegin hsave hcommit]
            simp
          · rcases hrb : s.repo.Rollback tx1 st4 with ⟨re, st5⟩
            rw [CreateProduct_commit_failed s p q err re e tx1 ⟨st, []⟩ st1 st2 st3 st4 st5
              hget hpass hq hbegin hsave hcommit hrb]
            simp
        · rcases hrb : s.repo.Rollback tx1 st3 with ⟨re, st4⟩
          rw [CreateProduct_save_failed s p q err re e tx1 ⟨st, []⟩ st1 st2 st3 st4
            hget hpass hq hbegin hsave hrb]
          simp
    · rw [CreateProduct_found s p q err ⟨st, []⟩ st1 hget hpass hq]
      simp [World.record]
  · rw [CreateProduct_rejected s p q err ⟨st, []⟩ st1 hget hpass]
    simp [World.record]

/-- C13: (1) over every repository, when the lookup of `p.Sku` returns the
record `q` and the error `err`, `CreateProduct(p)` short-circuits (returns
`nil` with the lookup as its only call, so no transaction) exactly when `err`
is `nil` or recognised as not-found and `q.Sku` is non-empty. (2) The lookup
of the default mock repository returns the zero product with no error, and
`CreateProduct` then does not short-circuit: it begins a transaction, saves
the product and commits. -/
theorem CreateProduct_short_circuit_iff :
    (∀ (σ τ : Type) (s : service σ τ) (p q : Product) (err : Option Error) (st st1 : σ),
        s.repo.GetProduct p.Sku [] st = ((q, err), st1) →
        (s.CreateProduct p ⟨st, []⟩ = (none, ⟨st1, [Call.GetProduct p.Sku]⟩)
          ↔ ((err = none ∨ errors.Is err ErrNotFound = true) ∧ q.Sku ≠ "")))
      ∧ (∀ sku, NewMockRepo.GetProductFunc sku [] = (Product.zero, none))
      ∧ (∀ p : Product,
          mockService.CreateProduct p ⟨(), []⟩
            = (none, ⟨(), [Call.GetProduct p.Sku, Call.BeginTransaction,
                Call.SaveProduct p ⟨⟩, Call.Commit ⟨⟩]⟩)) := by
  refine ⟨?_, fun _ => rfl, ?_⟩
  · intro σ τ s p q err st st1 hget
    constructor
    · intro h
      cases hpass : (err.isSome && !errors.Is err ErrNotFound)
      · refine ⟨(passes_iff err).mp hpass, ?_⟩
        intro hq
        rcases hbegin : s.repo.BeginTransaction st1 with ⟨e | tx1, st2⟩
        · rw [CreateProduct_begin_failed s p q err e ⟨st, []⟩ st1 st2 hget hpass hq hbegin] at h
          simp at h
        · rcases hsave : s.repo.SaveProduct p [tx1] st2 with ⟨_ | e, st3⟩
          · rcases hcommit : s.repo.Commit tx1 st3 with ⟨_ | e, st4⟩
            · rw [CreateProduct_committed s p q err tx1 ⟨st, []⟩ st1 st2 st3 st4
                hget hpass hq hbegin hsave hcommit] at h
              simp at h
            · rcases hrb : s.repo.Rollback tx1 st4 with ⟨re, st5⟩
              rw [CreateProduct_commit_failed s p q err re e tx1 ⟨st, []⟩ st1 st2 st3 st4 st5
                hget hpass hq hbegin hsave hcommit hrb] at h
              simp at h
          · rcases hrb : s.repo.Rollback tx1 st3 with ⟨re, st4⟩
            rw [CreateProduct_save_failed s p q err re e tx1 ⟨st, []⟩ st1 st2 st3 st4
              hget hpass hq hbegin hsave hrb] at h
            simp at h
      · rw [CreateProduct_rejected s p q err ⟨st, []⟩ st1 hget hpass] at h
        cases err with
        | none => simp at hpass
        | some e => simp [errors.WithStack] at h
    · rintro ⟨herr, hq⟩
      exact CreateProduct_found s p q err ⟨st, []⟩ st1 hget ((passes_iff err).mpr herr) hq
  · intro p
    exact CreateProduct_committed mockService p Product.zero none ⟨⟩ ⟨(), []⟩ () () () ()
      rfl rfl rfl rfl rfl rfl

/-- C13 at the database that holds `sku1, upc0, name0` (short-circuit) and at
the default mock repository (no short-circuit). -/
theorem CreateProduct_short_circuit_iff_witness :
    pgService.repo.GetProduct tp.Sku [] sku1Pg = ((⟨"sku1", "upc0", "name0"⟩, none), sku1Pg)
      ∧ (pgService.CreateProduct tp ⟨sku1Pg, []⟩ = (none, ⟨sku1Pg, [Call.GetProduct tp.Sku]⟩)
          ↔ (((none : Option Error) = none ∨ errors.Is none ErrNotFound = true)
              ∧ (⟨"sku1", "upc0", "name0"⟩ : Product).Sku ≠ ""))
      ∧ mockService.CreateProduct tp ⟨(), []⟩
          = (none, ⟨(), [Call.GetProduct tp.Sku, Call.BeginTransaction,
              Call.SaveProduct tp ⟨⟩, Call.Commit ⟨⟩]⟩) :=
  ⟨by decide,
    CreateProduct_short_circuit_iff.1 Pg PgTx pgService tp ⟨"sku1", "upc0", "name0"⟩ none
      sku1Pg sku1Pg (by decide),
    CreateProduct_short_circuit_iff.2.2 tp⟩

/-- C14: when the lookup lets the creation proceed without short-circuiting
and `BeginTransaction` fails with `e`, `CreateProduct(p)` returns
`WithStack(e)`; the calls issued are the lookup and `BeginTransaction` only,
so `SaveProduct`, `Commit` and `Rollback` are not called, and the store is
left as `BeginTransaction` left it. -/
theorem CreateProduct_begin_failure {σ τ : Type} (s : service σ τ) (p q : Product)
    (err : Option Error) (e : Error) (st st1 st2 : σ)
    (hget : s.repo.GetProduct p.Sku [] st = ((q, err), st1))
    (hpass : (err.isSome && !errors.Is err ErrNotFound) = false)
    (hq : q.Sku = "")
    (hbegin : s.repo.BeginTransaction st1 = (Except.error e, st2)) :
    s.CreateProduct p ⟨st, []⟩
        = (some (Error.withStack e),
            ⟨st2, [Call.GetProduct p.Sku, Call.BeginTransaction]⟩)
      ∧ (∀ product tx, Call.SaveProduct product tx ∉ (s.CreateProduct p ⟨st, []⟩).2.calls)
      ∧ (∀ tx, Call.Commit tx ∉ (s.CreateProduct p ⟨st, []⟩).2.calls)
      ∧ (∀ tx, Call.Rollback tx ∉ (s.CreateProduct p ⟨st, []⟩).2.calls) := by
  have h := CreateProduct_begin_failed s p q err e ⟨st, []⟩ st1 st2 hget hpass hq hbegin
  rw [h]
  simp

/-- C14 at an empty database whose `BEGIN` fails. -/
theorem CreateProduct_begin_failure_witness :
    (pgService.repo.GetProduct tp.Sku [] beginFailsPg
          = ((Product.zero, some (Error.withStack ErrNotFound)), beginFailsPg)
        ∧ Product.zero.Sku = "")
      ∧ (pgService.CreateProduct tp ⟨beginFailsPg, []⟩
          = (some (Error.withStack (Error.new "begin failed")),
              ⟨beginFailsPg, [Call.GetProduct tp.Sku, Call.BeginTransaction]⟩)
        ∧ (∀ product tx,
            Call.SaveProduct product tx ∉ (pgService.CreateProduct tp ⟨beginFailsPg, []⟩).2.calls)
        ∧ (∀ tx, Call.Commit tx ∉ (pgService.CreateProduct tp ⟨beginFailsPg, []⟩).2.calls)
        ∧ (∀ tx, Call.Rollback tx ∉ (pgService.CreateProduct tp ⟨beginFailsPg, []⟩).2.calls)) :=
  ⟨⟨by decide, rfl⟩,
    CreateProduct_begin_failure pgService tp Product.zero (some (Error.withStack ErrNotFound))
      (Error.new "begin failed") beginFailsPg beginFailsPg beginFailsPg
      (by decide) (by decide) rfl rfl⟩

end Theorems

end SmfgCatalog
